import Mathlib

/-!
Shallow embedding of the metadata/version handlers of the helm-registry
package registry (pkg/api/v1/handlers/manifests.go), together with proofs
about the listing, latest-version resolution, pagination, and archive
mutation transactions (UpdateMetadata / UpdateValues).

External collaborators (the storage backend, the archive codec
chartutil.LoadArchive / orchestration.Archive, the JSON-to-YAML converter,
and the request-context accessors getSpaceName / getPaging / getMetadata /
getValues and the resource resolvers common.GetSpace / common.GetChart /
managerHelper) are modelled as parameters: their results are passed in as
`Except` values or as functions, and the storage backend for a version is
an explicit state record that also logs the storage calls the handler
makes, so that "PutContent is never invoked" is a provable statement.
-/

namespace HelmRegistry

/-- The error taxonomy of pkg/errors used by the manifests handlers:
content-not-found, parameter-value, parameter-type and internal-type
errors, each carrying its format arguments, plus opaque storage errors. -/
inductive RegistryError where
  | contentNotFound (resource : String)
  | paramValueError (field expected actual : String)
  | paramTypeError (field expected actual : String)
  | internalTypeError (resource expected actual : String)
  | storageError (op : String)
  | otherError (msg : String)
  deriving Repr, DecidableEq

/-- The identity-carrying part of a chart: chart.Metadata with its Name and
Version fields, plus descriptive fields (represented by a description
string, opaque to the handlers beyond name/version). -/
structure ChartMeta where
  name : String
  version : String
  description : String
  deriving Repr, DecidableEq

/-- storage.Metadata: the metadata projection exposed by listings and
mutation results; it embeds the chart metadata. -/
structure StorageMetadata where
  metadata : ChartMeta
  deriving Repr, DecidableEq

/-- The decoded in-memory form of an archive (chart.Chart): mutable
metadata, the raw configuration-values text (Values.Raw), and the
remaining opaque payload of the archive. -/
structure Chart where
  metadata : ChartMeta
  valuesRaw : String
  payload : List Nat
  deriving Repr, DecidableEq

/-- The archive codec collaborator: chartutil.LoadArchive (decode, which
can fail on corrupt bytes) and orchestration.Archive (encode, fallible).
The byte-blob type is kept abstract. -/
structure Codec (β : Type) where
  loadArchive : β → Option Chart
  archive : Chart → Except RegistryError β

/-- Modelled from the spec: storage.CoalesceMetadata, the
MetadataProjection component — a pure, total projection of a decoded
archive onto the externally visible Metadata shape (the function itself
lives outside the handler file). -/
def CoalesceMetadata (c : Chart) : StorageMetadata :=
  ⟨c.metadata⟩

/-- The storage backend's state for one version: the currently stored
archive blob, injected failure flags for the two storage operations, and
logs of the GetContent / PutContent invocations the handler performs. -/
structure VersionStorage (β : Type) where
  content : β
  getFails : Bool
  putFails : Bool
  getCount : Nat
  putLog : List β
  deriving Repr

/-- Version.GetContent: returns the stored blob or a storage error, and
records the invocation. -/
def GetContent {β : Type} (v : VersionStorage β) :
    Except RegistryError β × VersionStorage β :=
  ((if v.getFails then Except.error (RegistryError.storageError "GetContent")
    else Except.ok v.content),
   { v with getCount := v.getCount + 1 })

/-- Version.PutContent: replaces the stored blob wholesale (or fails with
a storage error), and records the invocation. -/
def PutContent {β : Type} (v : VersionStorage β) (data : β) :
    Except RegistryError Unit × VersionStorage β :=
  if v.putFails then
    (Except.error (RegistryError.storageError "PutContent"),
     { v with putLog := v.putLog ++ [data] })
  else
    (Except.ok (), { v with content := data, putLog := v.putLog ++ [data] })

/-- Modelled from the spec: the clamping of a requested start index to
[0, total] performed by standardizeRange / computeWindow. -/
def clampStart (total start : Int) : Int :=
  if start < 0 then 0 else if start > total then total else start

/-- Modelled from the spec: the effective limit used by standardizeRange /
computeWindow — a limit that is zero or negative extends the window to
total. -/
def effLimit (total limit : Int) : Int :=
  if limit ≤ 0 then total else limit

/-- Modelled from the spec: standardizeRange / computeWindow (the helper
lives outside the handler file). start is clamped to [0, total], a limit
that is zero or negative extends the window to total, and the end is
min(start + limit, total). -/
def standardizeRange (total start limit : Int) : Int × Int :=
  (clampStart total start,
   min (clampStart total start + effLimit total limit) total)

/-- The Go slice metadata[from:to] for 0 ≤ from ≤ to ≤ len. -/
def sliceRange {α : Type} (xs : List α) (s e : Int) : List α :=
  (xs.drop s.toNat).take (e - s).toNat

/-- A resolved version handle: the result of Version.Metadata on it. -/
structure VersionHandle where
  metadataResult : Except RegistryError StorageMetadata

/-- A resolved chart (package) handle: the results of Chart.List (ordered
version identifiers), Chart.Version (per identifier) and
Chart.VersionMetadata on it. -/
structure ChartHandle where
  listResult : Except RegistryError (List String)
  versionHandle : String → Except RegistryError VersionHandle
  versionMetadata : Except RegistryError (List StorageMetadata)

/-- A resolved space handle: the results of Space.List (ordered package
names) and Space.VersionMetadata on it. -/
structure SpaceHandle where
  listResult : Except RegistryError (List String)
  versionMetadata : Except RegistryError (List StorageMetadata)

/-- getLatestMetadata: resolve the chart, list its version identifiers,
fail with content-not-found "metadata" when there are none, otherwise
resolve the last identifier in backend order and return that version's
metadata. -/
def getLatestMetadata (chartE : Except RegistryError ChartHandle) :
    Except RegistryError StorageMetadata :=
  match chartE with
  | .error e => .error e
  | .ok chart =>
    match chart.listResult with
    | .error e => .error e
    | .ok versionNumbers =>
      if versionNumbers.length ≤ 0 then
        .error (RegistryError.contentNotFound "metadata")
      else
        match chart.versionHandle (versionNumbers.getLastD "") with
        | .error e => .error e
        | .ok version => version.metadataResult

/-- The loop body of ListLatestMetadataInSpace: latest metadata of each
chart name in order, aborting on the first error. -/
def collectLatest (getChart : String → Except RegistryError ChartHandle) :
    List String → Except RegistryError (List StorageMetadata)
  | [] => Except.ok []
  | n :: rest =>
    match getLatestMetadata (getChart n) with
    | .error e => .error e
    | .ok md =>
      match collectLatest getChart rest with
      | .error e => .error e
      | .ok mds => .ok (md :: mds)

/-- ListLatestMetadataInSpace: resolve the space name and paging from the
request, resolve the space, list its chart names, collect each chart's
latest metadata (aborting on the first failure), and return the total and
the paginated window. -/
def ListLatestMetadataInSpace
    (spaceNameE : Except RegistryError String)
    (pagingE : Except RegistryError (Int × Int))
    (getSpace : String → Except RegistryError SpaceHandle)
    (getChart : String → Except RegistryError ChartHandle) :
    Except RegistryError (Int × List StorageMetadata) :=
  match spaceNameE with
  | .error e => .error e
  | .ok spaceName =>
    match pagingE with
    | .error e => .error e
    | .ok (start, limit) =>
      match getSpace spaceName with
      | .error e => .error e
      | .ok space =>
        match space.listResult with
        | .error e => .error e
        | .ok chartNames =>
          match collectLatest getChart chartNames with
          | .error e => .error e
          | .ok metadata =>
            let total : Int := metadata.length
            let r := standardizeRange total start limit
            .ok (total, sliceRange metadata r.1 r.2)

/-- ListMetadataInChart: resolve names and paging, resolve the chart, get
all version metadata, and return the total and the paginated window. -/
def ListMetadataInChart
    (namesE : Except RegistryError (String × String))
    (pagingE : Except RegistryError (Int × Int))
    (chartE : Except RegistryError ChartHandle) :
    Except RegistryError (Int × List StorageMetadata) :=
  match namesE with
  | .error e => .error e
  | .ok _ =>
    match pagingE with
    | .error e => .error e
    | .ok (start, limit) =>
      match chartE with
      | .error e => .error e
      | .ok chart =>
        match chart.versionMetadata with
        | .error e => .error e
        | .ok metadata =>
          let total : Int := metadata.length
          let r := standardizeRange total start limit
          .ok (total, sliceRange metadata r.1 r.2)

/-- ListMetadataInSpace: resolve the space name and paging, resolve the
space, get all version metadata across the space, and return the total
and the paginated window. -/
def ListMetadataInSpace
    (spaceNameE : Except RegistryError String)
    (pagingE : Except RegistryError (Int × Int))
    (getSpace : String → Except RegistryError SpaceHandle) :
    Except RegistryError (Int × List StorageMetadata) :=
  match spaceNameE with
  | .error e => .error e
  | .ok spaceName =>
    match pagingE with
    | .error e => .error e
    | .ok (start, limit) =>
      match getSpace spaceName with
      | .error e => .error e
      | .ok space =>
        match space.versionMetadata with
        | .error e => .error e
        | .ok metadata =>
          let total : Int := metadata.length
          let r := standardizeRange total start limit
          .ok (total, sliceRange metadata r.1 r.2)

/-- GetLatestMetadataInChart: resolve the space and chart names, then
delegate to getLatestMetadata. -/
def GetLatestMetadataInChart
    (namesE : Except RegistryError (String × String))
    (chartE : Except RegistryError ChartHandle) :
    Except RegistryError StorageMetadata :=
  match namesE with
  | .error e => .error e
  | .ok _ => getLatestMetadata chartE

/-- UpdateMetadata, as run by managerHelper on the resolved version: read
the candidate metadata from the request body (getMetadata, passed in as
mdE), fetch and decode the stored archive, reject a candidate whose name
(checked first) or version differs from the archive's with a
ParamValueError, otherwise replace the archive's metadata wholesale with
the candidate's, re-encode, persist via PutContent, and return the
metadata projection of the mutated archive. chartName/versionNumber are
chart.Name() and version.Number(), used for error formatting. -/
def UpdateMetadata {β : Type} (codec : Codec β)
    (chartName versionNumber : String)
    (mdE : Except RegistryError StorageMetadata)
    (v : VersionStorage β) :
    Except RegistryError StorageMetadata × VersionStorage β :=
  match mdE with
  | .error e => (.error e, v)
  | .ok md =>
    match GetContent v with
    | (.error e, v1) => (.error e, v1)
    | (.ok data, v1) =>
      match codec.loadArchive data with
      | none =>
        (.error (RegistryError.internalTypeError
          (chartName ++ "/" ++ versionNumber) "chart" "unknown"), v1)
      | some origin =>
        if origin.metadata.name ≠ md.metadata.name then
          (.error (RegistryError.paramValueError "name"
            origin.metadata.name md.metadata.name), v1)
        else if origin.metadata.version ≠ md.metadata.version then
          (.error (RegistryError.paramValueError "version"
            origin.metadata.version md.metadata.version), v1)
        else
          let mutated := { origin with metadata := md.metadata }
          match codec.archive mutated with
          | .error e => (.error e, v1)
          | .ok data2 =>
            match PutContent v1 data2 with
            | (.error e, v2) => (.error e, v2)
            | (.ok _, v2) => (.ok (CoalesceMetadata mutated), v2)

/-- UpdateValues, as run by managerHelper on the resolved version: read
the raw values bytes from the request body (getValues, passed in as
valuesE), convert them JSON-to-YAML (the conversion collaborator,
jsonToYaml), failing with a ParamTypeError if conversion fails; then fetch
and decode the stored archive, replace its Values.Raw with the converted
text, re-encode, persist via PutContent, and return the raw values bytes
that were supplied. -/
def UpdateValues {β : Type} (codec : Codec β)
    (jsonToYaml : List Nat → Option String)
    (chartName versionNumber : String)
    (valuesE : Except RegistryError (List Nat))
    (v : VersionStorage β) :
    Except RegistryError (List Nat) × VersionStorage β :=
  match valuesE with
  | .error e => (.error e, v)
  | .ok values =>
    match jsonToYaml values with
    | none =>
      (.error (RegistryError.paramTypeError "values" "json" "unknown"), v)
    | some yamlValues =>
      match GetContent v with
      | (.error e, v1) => (.error e, v1)
      | (.ok data, v1) =>
        match codec.loadArchive data with
        | none =>
          (.error (RegistryError.internalTypeError
            (chartName ++ "/" ++ versionNumber) "chart" "unknown"), v1)
        | some origin =>
          let mutated := { origin with valuesRaw := yamlValues }
          match codec.archive mutated with
          | .error e => (.error e, v1)
          | .ok data2 =>
            match PutContent v1 data2 with
            | (.error e, v2) => (.error e, v2)
            | (.ok _, v2) => (.ok values, v2)

/-! Concrete instances used to exercise the definitions on closed inputs:
an identity codec whose blob type is the decoded chart itself, a sample
archive, and a storage state holding it. -/

/-- An archive codec whose blob type is the decoded chart itself: decoding
always succeeds and encoding is the identity. It satisfies the round-trip
law decode (encode c) = some c. -/
def idCodec : Codec Chart :=
  ⟨fun c => some c, fun c => Except.ok c⟩

/-- A sample chart identity. -/
def sampleMeta : ChartMeta := ⟨"mychart", "1.0.0", "old description"⟩

/-- A sample decoded archive with identity sampleMeta. -/
def sampleChart : Chart := ⟨sampleMeta, "a: b", [0, 1, 2]⟩

/-- A healthy storage state holding sampleChart, with no injected storage
failures and empty call logs. -/
def sampleStore : VersionStorage Chart := ⟨sampleChart, false, false, 0, []⟩

/-- A chart handle with three listed versions, used to exercise the
pagination scenario start=5, limit=10 over 3 versions. -/
def threeVersionChart : ChartHandle :=
  ⟨.ok ["1.0.0", "2.0.0", "3.0.0"],
   fun _ => .error (RegistryError.otherError "unused"),
   .ok [⟨⟨"p1", "1.0.0", ""⟩⟩, ⟨⟨"p1", "2.0.0", ""⟩⟩, ⟨⟨"p1", "3.0.0", ""⟩⟩]⟩

/-- C7: for every total ≥ 0 and all start and limit values, the pagination
window satisfies 0 ≤ from ≤ to ≤ total with to = min(clamped start +
effective limit, total), where start is clamped to [0, total] and a limit
≤ 0 extends to total; and the scenario start=5, limit=10 over a chart with
3 versions returns an empty page with total = 3. -/
theorem pagination_window_bounds :
    (∀ total start limit : Int, 0 ≤ total →
      0 ≤ (standardizeRange total start limit).1 ∧
      (standardizeRange total start limit).1 ≤ (standardizeRange total start limit).2 ∧
      (standardizeRange total start limit).2 ≤ total ∧
      (standardizeRange total start limit).2 =
        min (clampStart total start + effLimit total limit) total) ∧
    ListMetadataInChart (.ok ("s1", "p1")) (.ok (5, 10)) (.ok threeVersionChart) =
      .ok (3, []) := by
  constructor
  · intro total start limit htotal
    refine ⟨?_, ?_, ?_, rfl⟩
    · simp only [standardizeRange, clampStart, effLimit]
      split_ifs <;> omega
    · simp only [standardizeRange, clampStart, effLimit, min_def]
      split_ifs <;> omega
    · simp only [standardizeRange, clampStart, effLimit, min_def]
      split_ifs <;> omega
  · rfl

/-- Witness for C7: the window bounds evaluated at total=3, start=5,
limit=10. -/
theorem pagination_window_bounds_witness :
    0 ≤ (standardizeRange 3 5 10).1 ∧
      (standardizeRange 3 5 10).1 ≤ (standardizeRange 3 5 10).2 ∧
      (standardizeRange 3 5 10).2 ≤ 3 ∧
      (standardizeRange 3 5 10).2 = min (clampStart 3 5 + effLimit 3 10) 3 :=
  pagination_window_bounds.1 3 5 10 (by decide)

/-! Latest-version resolution and the space-wide latest listing. -/

/-- Collecting each chart's latest metadata succeeds with one entry per
chart, in order, when every chart resolves. -/
lemma collectLatest_map (getChart : String → Except RegistryError ChartHandle)
    (f : String → StorageMetadata) :
    ∀ names : List String,
      (∀ n ∈ names, getLatestMetadata (getChart n) = .ok (f n)) →
      collectLatest getChart names = .ok (names.map f) := by
  intro names
  induction names with
  | nil => intro _; rfl
  | cons n rest ih =>
    intro h
    have hn := h n (by simp)
    have hrest := ih (fun m hm => h m (by simp [hm]))
    simp only [collectLatest, hn, hrest, List.map]

/-- The slice from 0 to the full length is the whole list. -/
lemma sliceRange_full {α : Type} (xs : List α) :
    sliceRange xs 0 (xs.length : Int) = xs := by
  simp [sliceRange]

/-- The default paging (start 0, limit 0) yields the full window. -/
lemma standardizeRange_zero_zero (total : Int) (h : 0 ≤ total) :
    standardizeRange total 0 0 = (0, total) := by
  have h1 : clampStart total 0 = 0 := by
    unfold clampStart
    split_ifs <;> omega
  have h2 : effLimit total 0 = total := by
    unfold effLimit
    simp
  rw [standardizeRange, h1, h2]
  simp

/-- Collecting latest metadata propagates the error of the first chart
whose resolution fails, when every earlier chart resolves. -/
lemma collectLatest_first_error (getChart : String → Except RegistryError ChartHandle)
    (err : RegistryError) (bad : String) (rest : List String)
    (hbadlatest : getLatestMetadata (getChart bad) = .error err) :
    ∀ pre : List String,
      (∀ n ∈ pre, ∃ m, getLatestMetadata (getChart n) = .ok m) →
      collectLatest getChart (pre ++ bad :: rest) = .error err := by
  intro pre
  induction pre with
  | nil =>
    intro _
    simp only [List.nil_append, collectLatest, hbadlatest]
  | cons p ps ih =>
    intro h
    obtain ⟨m, hp⟩ := h p (by simp)
    have ihh := ih (fun n hn => h n (by simp [hn]))
    simp only [List.cons_append, collectLatest, hp, List.append_eq, ihh]

/-- C6: when a chart's version-identifier list is non-empty, latest-version
resolution returns the metadata of the last listed identifier; when the
list is empty it fails with content-not-found "metadata"; and
GetLatestMetadataInChart delegates to getLatestMetadata once the names
resolve. -/
theorem getLatestMetadata_last_element :
    (∀ (chart : ChartHandle) (vs : List String) (version : VersionHandle)
        (m : StorageMetadata),
      chart.listResult = .ok vs → vs ≠ [] →
      chart.versionHandle (vs.getLastD "") = .ok version →
      version.metadataResult = .ok m →
      getLatestMetadata (.ok chart) = .ok m) ∧
    (∀ chart : ChartHandle, chart.listResult = .ok [] →
      getLatestMetadata (.ok chart) =
        .error (RegistryError.contentNotFound "metadata")) ∧
    (∀ (names : String × String) (chartE : Except RegistryError ChartHandle),
      GetLatestMetadataInChart (.ok names) chartE = getLatestMetadata chartE) := by
  refine ⟨?_, ?_, fun _ _ => rfl⟩
  · intro chart vs version m hlist hne hver hmd
    simp only [getLatestMetadata, hlist]
    rw [if_neg (by simpa using hne)]
    simp only [hver, hmd]
  · intro chart hlist
    simp only [getLatestMetadata, hlist]
    rfl

/-- The latest metadata of the sample package p1. -/
def p1Meta : StorageMetadata := ⟨⟨"p1", "2.0.0", "latest"⟩⟩

/-- A chart handle for p1 with versions 1.0.0 and 2.0.0, whose version
handles report metadata at the queried identifier. -/
def p1Chart : ChartHandle :=
  ⟨.ok ["1.0.0", "2.0.0"],
   fun n => .ok ⟨.ok ⟨⟨"p1", n, "latest"⟩⟩⟩,
   .ok [⟨⟨"p1", "1.0.0", ""⟩⟩, p1Meta]⟩

/-- A chart handle with an empty version-identifier list. -/
def emptyChart : ChartHandle :=
  ⟨.ok [], fun _ => .error (RegistryError.otherError "unused"), .ok []⟩

/-- Witness for C6: latest of p1's two versions is its 2.0.0 metadata, and
a zero-version chart yields content-not-found "metadata". -/
theorem getLatestMetadata_last_element_witness :
    getLatestMetadata (.ok p1Chart) = .ok p1Meta ∧
    getLatestMetadata (.ok emptyChart) =
      .error (RegistryError.contentNotFound "metadata") :=
  ⟨getLatestMetadata_last_element.1 p1Chart ["1.0.0", "2.0.0"] ⟨.ok p1Meta⟩ p1Meta
      rfl (by decide) rfl rfl,
   getLatestMetadata_last_element.2.1 emptyChart rfl⟩

/-- C9: when every package in a space resolves to a latest metadata entry,
ListLatestMetadataInSpace (with default paging) returns one entry per
package in listing order, with total the number of packages. -/
theorem listLatest_one_entry_per_package
    (spaceName : String)
    (getSpace : String → Except RegistryError SpaceHandle)
    (getChart : String → Except RegistryError ChartHandle)
    (space : SpaceHandle) (chartNames : List String)
    (f : String → StorageMetadata)
    (hspace : getSpace spaceName = .ok space)
    (hlist : space.listResult = .ok chartNames)
    (hlatest : ∀ n ∈ chartNames, getLatestMetadata (getChart n) = .ok (f n)) :
    ListLatestMetadataInSpace (.ok spaceName) (.ok (0, 0)) getSpace getChart =
      .ok ((chartNames.length : Int), chartNames.map f) := by
  have hcollect := collectLatest_map getChart f chartNames hlatest
  simp only [ListLatestMetadataInSpace, hspace, hlist, hcollect]
  rw [standardizeRange_zero_zero _ (by positivity)]
  rw [sliceRange_full]
  simp

/-- A space handle listing the single package p1. -/
def oneSpace : SpaceHandle := ⟨.ok ["p1"], .ok []⟩

/-- Witness for C9: space s1 with package p1 at versions 1.0.0 and 2.0.0
yields exactly one entry, p1's metadata at 2.0.0, with total 1. -/
theorem listLatest_one_entry_per_package_witness :
    ListLatestMetadataInSpace (.ok "s1") (.ok (0, 0))
        (fun _ => .ok oneSpace) (fun _ => .ok p1Chart) =
      .ok (1, [p1Meta]) :=
  listLatest_one_entry_per_package "s1" (fun _ => .ok oneSpace)
    (fun _ => .ok p1Chart) oneSpace ["p1"] (fun _ => p1Meta) rfl rfl
    (fun _ _ => rfl)

/-- C10: when a space lists a package with an empty version list and every
earlier package resolves, ListLatestMetadataInSpace fails as a whole with
that package's content-not-found "metadata" error. -/
theorem listLatest_fails_on_zero_version_package
    (spaceName : String) (start limit : Int)
    (getSpace : String → Except RegistryError SpaceHandle)
    (getChart : String → Except RegistryError ChartHandle)
    (space : SpaceHandle) (pre rest : List String) (bad : String)
    (badChart : ChartHandle)
    (hspace : getSpace spaceName = .ok space)
    (hlist : space.listResult = .ok (pre ++ bad :: rest))
    (hpre : ∀ n ∈ pre, ∃ m, getLatestMetadata (getChart n) = .ok m)
    (hbad : getChart bad = .ok badChart)
    (hbadlist : badChart.listResult = .ok []) :
    ListLatestMetadataInSpace (.ok spaceName) (.ok (start, limit)) getSpace getChart =
      .error (RegistryError.contentNotFound "metadata") := by
  have hbadlatest : getLatestMetadata (getChart bad) =
      .error (RegistryError.contentNotFound "metadata") := by
    simp only [getLatestMetadata, hbad, hbadlist]
    rfl
  have hcollect := collectLatest_first_error getChart _ bad rest hbadlatest pre hpre
  simp only [ListLatestMetadataInSpace, hspace, hlist, hcollect]

/-- A space handle listing p1 followed by a zero-version package. -/
def twoSpace : SpaceHandle := ⟨.ok ["p1", "pEmpty"], .ok []⟩

/-- Chart resolution for twoSpace: pEmpty has no versions, anything else
resolves to p1Chart. -/
def mixedGetChart : String → Except RegistryError ChartHandle :=
  fun n => if n = "pEmpty" then .ok emptyChart else .ok p1Chart

/-- Witness for C10: a space listing p1 then a zero-version package fails
as a whole with content-not-found "metadata". -/
theorem listLatest_fails_on_zero_version_package_witness :
    ListLatestMetadataInSpace (.ok "s1") (.ok (0, 10))
        (fun _ => .ok twoSpace) mixedGetChart =
      .error (RegistryError.contentNotFound "metadata") :=
  listLatest_fails_on_zero_version_package "s1" 0 10 (fun _ => .ok twoSpace)
    mixedGetChart twoSpace ["p1"] [] "pEmpty" emptyChart rfl rfl
    (by
      intro n hn
      have hn1 : n = "p1" := by simpa using hn
      subst hn1
      exact ⟨p1Meta, rfl⟩)
    rfl rfl

/-! The archive mutation transactions. -/

/-- When no storage failure is injected, GetContent returns the stored
blob and only bumps the read counter. -/
lemma GetContent_no_fail {β : Type} (v : VersionStorage β) (h : v.getFails = false) :
    GetContent v = (.ok v.content, { v with getCount := v.getCount + 1 }) := by
  simp [GetContent, h]

/-- A candidate metadata whose name differs from the sample archive's. -/
def mismatchedMeta : StorageMetadata := ⟨⟨"othername", "1.0.0", "new"⟩⟩

/-- A candidate metadata matching the sample archive's identity but with a
new description. -/
def newMeta : StorageMetadata := ⟨⟨"mychart", "1.0.0", "new description"⟩⟩

/-- A JSON-to-YAML converter that rejects every payload. -/
def failJson : List Nat → Option String := fun _ => none

/-- A JSON-to-YAML converter that converts every payload to a fixed YAML
document. -/
def okJson : List Nat → Option String := fun _ => some "k: v"

/-- C1: a metadata update whose candidate's name or version differs from
the decoded stored archive's fails with a ParamValueError naming the
offending field (name checked first, then version), and the stored
content is unchanged with PutContent never invoked. -/
theorem updateMetadata_identity_mismatch_rejected {β : Type} (codec : Codec β)
    (cn vn : String) (md : StorageMetadata) (v : VersionStorage β) (origin : Chart)
    (hget : v.getFails = false)
    (hload : codec.loadArchive v.content = some origin)
    (hmis : origin.metadata.name ≠ md.metadata.name ∨
      origin.metadata.version ≠ md.metadata.version) :
    (UpdateMetadata codec cn vn (.ok md) v).1 =
      (if origin.metadata.name ≠ md.metadata.name then
        Except.error (RegistryError.paramValueError "name"
          origin.metadata.name md.metadata.name)
      else
        Except.error (RegistryError.paramValueError "version"
          origin.metadata.version md.metadata.version)) ∧
    (UpdateMetadata codec cn vn (.ok md) v).2.content = v.content ∧
    (UpdateMetadata codec cn vn (.ok md) v).2.putLog = v.putLog := by
  simp only [UpdateMetadata, GetContent_no_fail v hget, hload]
  by_cases hn : origin.metadata.name = md.metadata.name
  · have hv : origin.metadata.version ≠ md.metadata.version := by
      rcases hmis with h | h
      · exact absurd hn h
      · exact h
    simp [hn, hv]
  · simp [hn]

/-- Witness for C1: updating the sample archive with a candidate named
othername is rejected on the name field and the store is untouched. -/
theorem updateMetadata_identity_mismatch_rejected_witness :
    (UpdateMetadata idCodec "mychart" "1.0.0" (.ok mismatchedMeta) sampleStore).1 =
      (if sampleChart.metadata.name ≠ mismatchedMeta.metadata.name then
        Except.error (RegistryError.paramValueError "name"
          sampleChart.metadata.name mismatchedMeta.metadata.name)
      else
        Except.error (RegistryError.paramValueError "version"
          sampleChart.metadata.version mismatchedMeta.metadata.version)) ∧
    (UpdateMetadata idCodec "mychart" "1.0.0"
        (.ok mismatchedMeta) sampleStore).2.content = sampleStore.content ∧
    (UpdateMetadata idCodec "mychart" "1.0.0"
        (.ok mismatchedMeta) sampleStore).2.putLog = sampleStore.putLog :=
  updateMetadata_identity_mismatch_rejected idCodec "mychart" "1.0.0"
    mismatchedMeta sampleStore sampleChart rfl rfl (Or.inl (by decide))

/-- C2: any error of UpdateMetadata or UpdateValues other than a PutContent
storage failure — a failing body read, GetContent, decode, identity check,
values conversion, or re-encode — leaves the stored content byte-for-byte
unchanged and the PutContent log untouched: the transaction aborts before
the persist step. -/
theorem mutation_error_leaves_content_unchanged {β : Type} (codec : Codec β)
    (cn vn : String) :
    (∀ (mdE : Except RegistryError StorageMetadata) (v : VersionStorage β)
        (e : RegistryError),
      (UpdateMetadata codec cn vn mdE v).1 = .error e →
      e ≠ RegistryError.storageError "PutContent" →
      (UpdateMetadata codec cn vn mdE v).2.content = v.content ∧
      (UpdateMetadata codec cn vn mdE v).2.putLog = v.putLog) ∧
    (∀ (j : List Nat → Option String) (valuesE : Except RegistryError (List Nat))
        (v : VersionStorage β) (e : RegistryError),
      (UpdateValues codec j cn vn valuesE v).1 = .error e →
      e ≠ RegistryError.storageError "PutContent" →
      (UpdateValues codec j cn vn valuesE v).2.content = v.content ∧
      (UpdateValues codec j cn vn valuesE v).2.putLog = v.putLog) := by
  constructor
  · intro mdE v e herr hne
    cases mdE with
    | error e0 => simp [UpdateMetadata]
    | ok md =>
      cases hg : v.getFails with
      | true => simp [UpdateMetadata, GetContent, hg]
      | false =>
        cases hl : codec.loadArchive v.content with
        | none => simp [UpdateMetadata, GetContent_no_fail v hg, hl]
        | some origin =>
          by_cases hn : origin.metadata.name = md.metadata.name
          · by_cases hv : origin.metadata.version = md.metadata.version
            · cases ha : codec.archive { origin with metadata := md.metadata } with
              | error e2 =>
                simp [UpdateMetadata, GetContent_no_fail v hg, hl, hn, hv, ha]
              | ok data2 =>
                cases hp : v.putFails with
                | true =>
                  exfalso
                  apply hne
                  simp [UpdateMetadata, GetContent_no_fail v hg, hl, hn, hv, ha,
                    PutContent, hp] at herr
                  exact herr.symm
                | false =>
                  exfalso
                  simp [UpdateMetadata, GetContent_no_fail v hg, hl, hn, hv, ha,
                    PutContent, hp] at herr
            · simp [UpdateMetadata, GetContent_no_fail v hg, hl, hn, hv]
          · simp [UpdateMetadata, GetContent_no_fail v hg, hl, hn]
  · intro j valuesE v e herr hne
    cases valuesE with
    | error e0 => simp [UpdateValues]
    | ok values =>
      cases hc : j values with
      | none => simp [UpdateValues, hc]
      | some y =>
        cases hg : v.getFails with
        | true => simp [UpdateValues, hc, GetContent, hg]
        | false =>
          cases hl : codec.loadArchive v.content with
          | none => simp [UpdateValues, hc, GetContent_no_fail v hg, hl]
          | some origin =>
            cases ha : codec.archive { origin with valuesRaw := y } with
            | error e2 =>
              simp [UpdateValues, hc, GetContent_no_fail v hg, hl, ha]
            | ok data2 =>
              cases hp : v.putFails with
              | true =>
                exfalso
                apply hne
                simp [UpdateValues, hc, GetContent_no_fail v hg, hl, ha,
                  PutContent, hp] at herr
                exact herr.symm
              | false =>
                exfalso
                simp [UpdateValues, hc, GetContent_no_fail v hg, hl, ha,
                  PutContent, hp] at herr

/-- Witness for C2: the rejected mismatched-name update from C1's scenario
leaves the sample store's content and PutContent log unchanged. -/
theorem mutation_error_leaves_content_unchanged_witness :
    (UpdateMetadata idCodec "mychart" "1.0.0"
        (.ok mismatchedMeta) sampleStore).2.content = sampleStore.content ∧
    (UpdateMetadata idCodec "mychart" "1.0.0"
        (.ok mismatchedMeta) sampleStore).2.putLog = sampleStore.putLog :=
  (mutation_error_leaves_content_unchanged idCodec "mychart" "1.0.0").1
    (.ok mismatchedMeta) sampleStore
    (RegistryError.paramValueError "name" "mychart" "othername") rfl (by decide)

/-- The stored archive of a version handle addressed as mychart/1.0.0 whose
embedded identity is a different package: decoding succeeds yet the
embedded name and version disagree with the Version's own identity. -/
def otherChart : Chart := ⟨⟨"other", "9.9.9", "d"⟩, "a: b", []⟩

/-- A storage state holding otherChart. -/
def otherStore : VersionStorage Chart := ⟨otherChart, false, false, 0, []⟩

/-- A candidate metadata matching otherChart's embedded identity. -/
def otherMd : StorageMetadata := ⟨⟨"other", "9.9.9", "new desc"⟩⟩

/-- Counterexample to C3 as stated: a metadata update on the version
addressed as mychart/1.0.0 whose stored archive is embedded as
other/9.9.9 succeeds (the handler compares the candidate only against the
archive, never against chart.Name() / version.Number()), yet the mutated
archive's embedded name and version differ from the Version's identity. -/
theorem mutation_identity_vs_version_counterexample :
    (UpdateMetadata idCodec "mychart" "1.0.0" (.ok otherMd) otherStore).1 =
      .ok otherMd ∧
    (UpdateMetadata idCodec "mychart" "1.0.0"
        (.ok otherMd) otherStore).2.content.metadata.name ≠ "mychart" ∧
    (UpdateMetadata idCodec "mychart" "1.0.0"
        (.ok otherMd) otherStore).2.content.metadata.version ≠ "1.0.0" :=
  ⟨rfl, by decide, by decide⟩

/-- C3 (amended): provided the codec round-trips, every successful
metadata or values mutation preserves the embedded identity of the stored
archive; in particular, when the archive's embedded name and version
equal the Version's identifying chart name and version number before the
mutation, the mutated stored archive decodes to the same name and
version. -/
theorem mutation_preserves_archive_identity {β : Type} (codec : Codec β)
    (cn vn : String) (v : VersionStorage β) (origin : Chart)
    (hround : ∀ (c : Chart) (b : β), codec.archive c = .ok b →
      codec.loadArchive b = some c)
    (hload : codec.loadArchive v.content = some origin)
    (hname : origin.metadata.name = cn)
    (hver : origin.metadata.version = vn) :
    (∀ md m, (UpdateMetadata codec cn vn (.ok md) v).1 = .ok m →
      ∃ c, codec.loadArchive (UpdateMetadata codec cn vn (.ok md) v).2.content =
          some c ∧
        c.metadata.name = cn ∧ c.metadata.version = vn) ∧
    (∀ j valuesE bs, (UpdateValues codec j cn vn valuesE v).1 = .ok bs →
      ∃ c, codec.loadArchive (UpdateValues codec j cn vn valuesE v).2.content =
          some c ∧
        c.metadata.name = cn ∧ c.metadata.version = vn) := by
  constructor
  · intro md m hs
    cases hg : v.getFails with
    | true => simp [UpdateMetadata, GetContent, hg] at hs
    | false =>
      by_cases hn : origin.metadata.name = md.metadata.name
      · by_cases hv : origin.metadata.version = md.metadata.version
        · cases ha : codec.archive { origin with metadata := md.metadata } with
          | error e2 =>
            simp [UpdateMetadata, GetContent_no_fail v hg, hload, hn, hv, ha] at hs
          | ok data2 =>
            cases hp : v.putFails with
            | true =>
              simp [UpdateMetadata, GetContent_no_fail v hg, hload, hn, hv, ha,
                PutContent, hp] at hs
            | false =>
              refine ⟨{ origin with metadata := md.metadata }, ?_,
                by simp [← hn, hname], by simp [← hv, hver]⟩
              simp only [UpdateMetadata, GetContent_no_fail v hg, hload]
              rw [if_neg (by simp [hn]), if_neg (by simp [hv])]
              simp only [ha, PutContent, hp]
              simp only [Bool.false_eq_true, if_false]
              exact hround _ _ ha
        · simp [UpdateMetadata, GetContent_no_fail v hg, hload, hn, hv] at hs
      · simp [UpdateMetadata, GetContent_no_fail v hg, hload, hn] at hs
  · intro j valuesE bs hs
    cases valuesE with
    | error e0 => simp [UpdateValues] at hs
    | ok values =>
      cases hc : j values with
      | none => simp [UpdateValues, hc] at hs
      | some y =>
        cases hg : v.getFails with
        | true => simp [UpdateValues, hc, GetContent, hg] at hs
        | false =>
          cases ha : codec.archive { origin with valuesRaw := y } with
          | error e2 =>
            simp [UpdateValues, hc, GetContent_no_fail v hg, hload, ha] at hs
          | ok data2 =>
            cases hp : v.putFails with
            | true =>
              simp [UpdateValues, hc, GetContent_no_fail v hg, hload, ha,
                PutContent, hp] at hs
            | false =>
              refine ⟨{ origin with valuesRaw := y }, ?_, hname, hver⟩
              simp only [UpdateValues, hc, GetContent_no_fail v hg, hload]
              simp only [ha, PutContent, hp]
              simp only [Bool.false_eq_true, if_false]
              exact hround _ _ ha

/-- Witness for C3 (amended): a successful metadata update on the sample
store leaves the stored archive decoding to name mychart and version
1.0.0. -/
theorem mutation_preserves_archive_identity_witness :
    ∃ c, idCodec.loadArchive (UpdateMetadata idCodec "mychart" "1.0.0"
        (.ok newMeta) sampleStore).2.content = some c ∧
      c.metadata.name = "mychart" ∧ c.metadata.version = "1.0.0" :=
  (mutation_preserves_archive_identity idCodec "mychart" "1.0.0" sampleStore
      sampleChart
      (by
        intro c b h
        simp only [idCodec] at h ⊢
        cases h
        rfl)
      rfl rfl rfl).1
    newMeta ⟨newMeta.metadata⟩ rfl

/-- C4: a metadata update whose candidate matches the stored archive's
name and version replaces the archive's metadata wholesale with the
candidate's, persists the re-encoded archive via PutContent, and returns
the metadata projection of the mutated archive, whose name and version
are unchanged. -/
theorem updateMetadata_matching_identity_persists {β : Type} (codec : Codec β)
    (cn vn : String) (md : StorageMetadata) (v : VersionStorage β)
    (origin : Chart) (data2 : β)
    (hget : v.getFails = false)
    (hput : v.putFails = false)
    (hload : codec.loadArchive v.content = some origin)
    (hname : origin.metadata.name = md.metadata.name)
    (hver : origin.metadata.version = md.metadata.version)
    (harch : codec.archive { origin with metadata := md.metadata } = .ok data2) :
    (UpdateMetadata codec cn vn (.ok md) v).1 =
      .ok (CoalesceMetadata { origin with metadata := md.metadata }) ∧
    CoalesceMetadata { origin with metadata := md.metadata } = ⟨md.metadata⟩ ∧
    (UpdateMetadata codec cn vn (.ok md) v).2.content = data2 ∧
    (UpdateMetadata codec cn vn (.ok md) v).2.putLog = v.putLog ++ [data2] ∧
    md.metadata.name = origin.metadata.name ∧
    md.metadata.version = origin.metadata.version := by
  refine ⟨?_, rfl, ?_, ?_, hname.symm, hver.symm⟩ <;>
    simp [UpdateMetadata, GetContent_no_fail v hget, hload, hname, hver, harch,
      PutContent, hput]

/-- Witness for C4: updating the sample archive with a matching candidate
carrying a new description persists the re-encoded archive and returns
the candidate's projection. -/
theorem updateMetadata_matching_identity_persists_witness :
    (UpdateMetadata idCodec "mychart" "1.0.0" (.ok newMeta) sampleStore).1 =
      .ok (CoalesceMetadata { sampleChart with metadata := newMeta.metadata }) ∧
    CoalesceMetadata { sampleChart with metadata := newMeta.metadata } =
      ⟨newMeta.metadata⟩ ∧
    (UpdateMetadata idCodec "mychart" "1.0.0"
        (.ok newMeta) sampleStore).2.content =
      { sampleChart with metadata := newMeta.metadata } ∧
    (UpdateMetadata idCodec "mychart" "1.0.0"
        (.ok newMeta) sampleStore).2.putLog =
      sampleStore.putLog ++ [{ sampleChart with metadata := newMeta.metadata }] ∧
    newMeta.metadata.name = sampleChart.metadata.name ∧
    newMeta.metadata.version = sampleChart.metadata.version :=
  updateMetadata_matching_identity_persists idCodec "mychart" "1.0.0" newMeta
    sampleStore sampleChart { sampleChart with metadata := newMeta.metadata }
    rfl rfl rfl rfl rfl rfl

/-- C5: a values update whose payload fails the JSON-to-YAML conversion
fails with a ParamTypeError and leaves the storage state untouched — the
stored content is unchanged and neither GetContent nor PutContent is
invoked. -/
theorem updateValues_conversion_failure_unchanged {β : Type} (codec : Codec β)
    (jsonToYaml : List Nat → Option String) (cn vn : String)
    (values : List Nat) (v : VersionStorage β)
    (hconv : jsonToYaml values = none) :
    UpdateValues codec jsonToYaml cn vn (.ok values) v =
      (.error (RegistryError.paramTypeError "values" "json" "unknown"), v) := by
  simp only [UpdateValues, hconv]

/-- Witness for C5: a payload rejected by the converter yields a
ParamTypeError on the sample store, whose state is returned untouched. -/
theorem updateValues_conversion_failure_unchanged_witness :
    UpdateValues idCodec failJson "mychart" "1.0.0" (.ok [1, 2, 3]) sampleStore =
      (.error (RegistryError.paramTypeError "values" "json" "unknown"),
       sampleStore) :=
  updateValues_conversion_failure_unchanged idCodec failJson "mychart" "1.0.0"
    [1, 2, 3] sampleStore rfl

/-- C8: a successful values update returns the raw values bytes supplied
by the caller, while the stored content becomes the re-encoded archive
whose raw values text was replaced by the converted representation. -/
theorem updateValues_returns_raw_payload {β : Type} (codec : Codec β)
    (jsonToYaml : List Nat → Option String) (cn vn : String)
    (values : List Nat) (yamlValues : String) (v : VersionStorage β)
    (origin : Chart) (data2 : β)
    (hconv : jsonToYaml values = some yamlValues)
    (hget : v.getFails = false)
    (hput : v.putFails = false)
    (hload : codec.loadArchive v.content = some origin)
    (harch : codec.archive { origin with valuesRaw := yamlValues } = .ok data2) :
    (UpdateValues codec jsonToYaml cn vn (.ok values) v).1 = .ok values ∧
    (UpdateValues codec jsonToYaml cn vn (.ok values) v).2.content = data2 := by
  constructor <;>
    simp [UpdateValues, hconv, GetContent_no_fail v hget, hload, harch,
      PutContent, hput]

/-- Witness for C8: a successful values update on the sample store returns
the caller's raw bytes and stores the archive with the converted YAML. -/
theorem updateValues_returns_raw_payload_witness :
    (UpdateValues idCodec okJson "mychart" "1.0.0"
        (.ok [1, 2, 3]) sampleStore).1 = .ok [1, 2, 3] ∧
    (UpdateValues idCodec okJson "mychart" "1.0.0"
        (.ok [1, 2, 3]) sampleStore).2.content =
      { sampleChart with valuesRaw := "k: v" } :=
  updateValues_returns_raw_payload idCodec okJson "mychart" "1.0.0" [1, 2, 3]
    "k: v" sampleStore sampleChart { sampleChart with valuesRaw := "k: v" }
    rfl rfl rfl rfl rfl

end HelmRegistry
